import Mathlib

/-!
Formal model of the `astrbot_plugin_nyscheduler` plugin (`main.py`), a daily
push scheduler: schedule-clock computation, generic fetch pipeline with retry,
JSON tree extractors, and the fan-out dispatch to destination groups.

Conventions of the embedding:
* Instants (`datetime.datetime` values of the naive local clock) are modelled
  as a natural number of microseconds since an arbitrary midnight epoch; a day
  is the constant `usecPerDay` microseconds, matching naive-datetime
  arithmetic (`replace` keeps the calendar day, `timedelta(days=1)` adds
  exactly one day).
* Fallible Python code (statements that can raise) is modelled with
  `Except String` carrying the exception text; the network is modelled by
  functions from the attempt index to a response value.
* Effects (message sends, pacing sleeps, file removal, error logs) are
  modelled as explicit event traces.
-/

/-- JSON-like value tree as produced by `resp.json()`: string, number,
boolean, null, array, object (with field order preserved, as Python dicts
preserve insertion order). Numbers are modelled as integers. -/
inductive J where
  | str (s : String)
  | num (n : Int)
  | bool (b : Bool)
  | null
  | arr (items : List J)
  | obj (fields : List (String × J))

/-- Python `"sep".join(parts)`. -/
def pyJoin (sep : String) : List String → String
  | [] => ("")
  | [x] => x
  | x :: xs => x ++ sep ++ pyJoin sep xs

/-- Python `s.split(c)` on character lists: splitting the empty string yields
one empty part, and every occurrence of the separator starts a new part. -/
def splitOnChar (c : Char) : List Char → List (List Char)
  | [] => [[]]
  | x :: xs =>
    let r := splitOnChar c xs
    if x = c then [] :: r
    else
      match r with
      | [] => [[x]]
      | p :: ps => (x :: p) :: ps

/-- ASCII decimal digit test. -/
def isDigitChar (c : Char) : Bool := 48 ≤ c.toNat && c.toNat ≤ 57

/-- Non-empty all-digit character list. -/
def isDigits (l : List Char) : Bool := !l.isEmpty && l.all isDigitChar

/-- Decimal value of a digit list. -/
def natOfDigits (l : List Char) : Nat :=
  l.foldl (fun acc c => acc * 10 + (c.toNat - 48)) 0

/-- Python `int(s)`: an optional sign followed by decimal digits (surrounding
whitespace and digit-group underscores, which Python also tolerates, are not
modelled). `none` models the `ValueError` that `int` raises otherwise. -/
def pyInt : List Char → Option Int
  | '-' :: t => if isDigits t then some (-(natOfDigits t : Int)) else none
  | '+' :: t => if isDigits t then some ((natOfDigits t : Int)) else none
  | t => if isDigits t then some ((natOfDigits t : Int)) else none

/-- Python `s.startswith(pre)`. -/
def pyStartsWith (s pre : String) : Bool := pre.toList.isPrefixOf s.toList

mutual

/-- Model of `Daily60sNewsPlugin._extract_first_string` (main.py:361-374).
Note the Python code tests the recursive result with `if res:`, so an empty
string found below the root is treated as "no result" and skipped. -/
def extractFirstString : J → Option String
  | J.str s => some s
  | J.obj kvs => extractFsFields kvs
  | J.arr l => extractFsItems l
  | J.num _ => none
  | J.bool _ => none
  | J.null => none

/-- The `for item in obj` loop of `_extract_first_string` over a list. -/
def extractFsItems : List J → Option String
  | [] => none
  | x :: xs =>
    match extractFirstString x with
    | some s => if s = ("") then extractFsItems xs else some s
    | none => extractFsItems xs

/-- The `for v in obj.values()` loop of `_extract_first_string` over a dict. -/
def extractFsFields : List (String × J) → Option String
  | [] => none
  | (_, v) :: kvs =>
    match extractFirstString v with
    | some s => if s = ("") then extractFsFields kvs else some s
    | none => extractFsFields kvs

end

/-- Python substring test `pat in s` on character lists. -/
def hasInfix (pat : List Char) : List Char → Bool
  | [] => pat.isEmpty
  | c :: t => List.isPrefixOf pat (c :: t) || hasInfix pat t

/-- Python `pat in s` for strings. -/
def strContains (s pat : String) : Bool := hasInfix pat.toList s.toList

/-- The image-URL test of `_extract_first_image_url` (main.py:377):
`obj.startswith("http") and any(ext in obj for ext in (".jpg", ".jpeg", ".png"))`. -/
def isImageUrl (s : String) : Bool :=
  pyStartsWith s ("http") &&
    (strContains s (".jpg") || strContains s (".jpeg") || strContains s (".png"))

mutual

/-- Model of `Daily60sNewsPlugin._extract_first_image_url` (main.py:376-389). -/
def extractFirstImageUrl : J → Option String
  | J.str s => if isImageUrl s then some s else none
  | J.obj kvs => extractFiuFields kvs
  | J.arr l => extractFiuItems l
  | J.num _ => none
  | J.bool _ => none
  | J.null => none

/-- The list loop of `_extract_first_image_url`; the recursive result is
tested with `if res:` just like in `_extract_first_string`. -/
def extractFiuItems : List J → Option String
  | [] => none
  | x :: xs =>
    match extractFirstImageUrl x with
    | some s => if s = ("") then extractFiuItems xs else some s
    | none => extractFiuItems xs

/-- The dict loop of `_extract_first_image_url`. -/
def extractFiuFields : List (String × J) → Option String
  | [] => none
  | (_, v) :: kvs =>
    match extractFirstImageUrl v with
    | some s => if s = ("") then extractFiuFields kvs else some s
    | none => extractFiuFields kvs

end

mutual

/-- All strings of a JSON tree in depth-first order (object key order and
array order), the reference enumeration the spec describes. -/
def dfsStrings : J → List String
  | J.str s => [s]
  | J.obj kvs => dfsFields kvs
  | J.arr l => dfsItems l
  | J.num _ => []
  | J.bool _ => []
  | J.null => []

/-- Depth-first strings of a list of JSON values. -/
def dfsItems : List J → List String
  | [] => []
  | x :: xs => dfsStrings x ++ dfsItems xs

/-- Depth-first strings of the values of an object. -/
def dfsFields : List (String × J) → List String
  | [] => []
  | (_, v) :: kvs => dfsStrings v ++ dfsFields kvs

end

/-- Modelled from the spec: `first_string(value)` as §4.3 words it — "returns
the first value encountered (depth-first) that is itself a string". -/
def specFirstString (j : J) : Option String := (dfsStrings j).head?

/-- First element of a string list satisfying a Boolean predicate. -/
def firstSuchThat (p : String → Bool) (l : List String) : Option String :=
  (l.filter p).head?

/-- Predicate for a non-empty string (Python truthiness of a string). -/
def strTruthy (s : String) : Bool := !(s == (""))

/-- First non-empty string of a list. -/
def firstNonEmpty (l : List String) : Option String := firstSuchThat strTruthy l

/-- Model of `Daily60sNewsPlugin._parse_time` together with the exception
behaviour of the surrounding `try` in `_get_next_push_time` (main.py:49-66):
`h, m = map(int, time_str.split(":"))` raises unless the string has exactly
two `:`-separated integer parts, and `datetime.time(hour=h, minute=m)` raises
unless `0 <= h <= 23` and `0 <= m <= 59`. `none` models a raised exception,
which `_get_next_push_time` catches, logs as a warning, and drops. -/
def parseTime (s : String) : Option (Nat × Nat) :=
  match splitOnChar ':' s.toList with
  | [hs, ms] =>
    match pyInt hs, pyInt ms with
    | some h, some m =>
      if 0 ≤ h ∧ h ≤ 23 ∧ 0 ≤ m ∧ m ≤ 59 then some (h.toNat, m.toNat) else none
    | _, _ => none
  | _ => none

/-- Microseconds per day; naive `datetime` arithmetic has uniform days. -/
def usecPerDay : Nat := 86400000000

/-- Microsecond offset within a day of the instant `hh:mm:00.000000`. -/
def timeOffsetUsec (h m : Nat) : Nat := (h * 3600 + m * 60) * 1000000

/-- One candidate of `_get_next_push_time` (main.py:61-63):
`now.replace(hour=t.hour, minute=t.minute, second=0, microsecond=0)` keeps
the calendar day of `now` and zeroes seconds and microseconds; the candidate
is advanced by exactly one day when `candidate <= now`. -/
def triggerCandidate (now h m : Nat) : Nat :=
  let base := now / usecPerDay * usecPerDay + timeOffsetUsec h m
  if base ≤ now then base + usecPerDay else base

/-- The `ValueError` message raised on an empty candidate list (main.py:68). -/
def noValidPushTimeMsg : String := "没有有效的推送时间配置"

/-- Model of `Daily60sNewsPlugin._get_next_push_time` (main.py:54-69): build
the candidate for every trigger string that parses, drop the rest, raise
`ValueError` when no candidate remains, else return the minimum candidate. -/
def getNextPushTime (pushTimes : List String) (now : Nat) : Except String Nat :=
  match pushTimes.filterMap
      (fun s => (parseTime s).map (fun hm => triggerCandidate now hm.1 hm.2)) with
  | [] => Except.error noValidPushTimeMsg
  | c :: cs => Except.ok (cs.foldl min c)

/-- The trigger strings whose parse failure is logged as a warning by
`_get_next_push_time` (main.py:66). -/
def invalidPushTimes (pushTimes : List String) : List String :=
  pushTimes.filter (fun s => (parseTime s).isNone)

/-- Observable effects of `_send_to_groups` (main.py:87-108): a send attempt
to a target (the `context.send_message` call; a failing attempt raises after
the event), the 2-second pacing sleep, the attempted deletion of the
temporary file (`os.remove` inside its own swallow-all `try`), and an error
log from the outer `except` handler. Targets are modelled as naturals. -/
inductive Ev where
  | send (target : Nat) (isImage : Bool) (payload : String)
  | sleep (secs : Nat)
  | removeFile (path : String)
  | logError (msg : String)
deriving DecidableEq

/-- Test for a send-attempt event. -/
def isSendEv : Ev → Bool
  | Ev.send _ _ _ => true
  | _ => false

/-- Test for a file-removal event. -/
def isRemoveEv : Ev → Bool
  | Ev.removeFile _ => true
  | _ => false

/-- Test for an error-log event. -/
def isLogEv : Ev → Bool
  | Ev.logError _ => true
  | _ => false

/-- The `for target in self.groups` loop of `_send_to_groups` (main.py:93-95
and 104-106): send to the target, then sleep 2 seconds. `outcome i = some e`
means the send to the i-th destination raises exception text `e`, which
propagates out of the loop; the returned flag is the escaping exception. -/
def sendLoop (groups : List Nat) (outcome : Nat → Option String)
    (isImage : Bool) (payload : String) (idx : Nat) : List Ev × Option String :=
  match groups with
  | [] => ([], none)
  | t :: rest =>
    match outcome idx with
    | none =>
      let r := sendLoop rest outcome isImage payload (idx + 1)
      (Ev.send t isImage payload :: Ev.sleep 2 :: r.1, r.2)
    | some e => ([Ev.send t isImage payload], some e)

/-- The prefix of the log message written by the outer handler (main.py:108). -/
def pushFailLog (e : String) : String := ("[推送] 失败: ") ++ e

/-- Model of `Daily60sNewsPlugin._send_to_groups` (main.py:87-108) as the
trace of its effects. `fetch` is the `(payload, ok)` pair the awaited
`fetch_func()` returned. When `ok` is false the code raises
`Exception(str(payload))`, caught by the outer handler which only logs.
In the image branch, `os.remove(path)` runs only after the loop finishes
without an exception; an exception from any send aborts the loop, skips the
removal, and is logged by the outer handler. The text branch is the same
loop without the removal. -/
def sendToGroups (fetch : String × Bool) (isImage : Bool) (groups : List Nat)
    (outcome : Nat → Option String) : List Ev :=
  if fetch.2 = false then [Ev.logError (pushFailLog fetch.1)]
  else
    match sendLoop groups outcome isImage fetch.1 0 with
    | (tr, some e) => tr ++ [Ev.logError (pushFailLog e)]
    | (tr, none) => if isImage then tr ++ [Ev.removeFile fetch.1] else tr

/-- Decimal digit characters of a natural number (helper for `str(int)`);
the fuel argument is always at least the number itself plus one. -/
def natReprAux : Nat → Nat → List Char
  | 0, _ => []
  | fuel + 1, n =>
    if n < 10 then [Nat.digitChar n]
    else natReprAux fuel (n / 10) ++ [Nat.digitChar (n % 10)]

/-- Decimal rendering of a natural number. -/
def natRepr (n : Nat) : String := String.mk (natReprAux (n + 1) n)

/-- Python `str(int)`. -/
def intRepr : Int → String
  | Int.ofNat m => natRepr m
  | Int.negSucc m => ("-") ++ natRepr (m + 1)

mutual

/-- Python `repr` of a JSON-parsed value, as used by `str` on containers:
strings are quoted (quote-selection and character escaping inside the string
are not modelled), `True`/`False`/`None` keywords, and bracketed
comma-separated containers with `repr`ed elements. -/
def pyRepr : J → String
  | J.str s => ("\x27") ++ s ++ ("\x27")
  | J.num n => intRepr n
  | J.bool b => if b then ("True") else ("False")
  | J.null => ("None")
  | J.arr l => ("[") ++ pyJoin (", ") (pyReprItems l) ++ ("]")
  | J.obj kvs => ("\x7b") ++ pyJoin (", ") (pyReprFields kvs) ++ ("\x7d")

/-- `repr`s of the elements of a list. -/
def pyReprItems : List J → List String
  | [] => []
  | x :: xs => pyRepr x :: pyReprItems xs

/-- `'key': repr(value)` entries of a dict. -/
def pyReprFields : List (String × J) → List String
  | [] => []
  | (k, v) :: kvs => (("\x27") ++ k ++ ("\x27: ") ++ pyRepr v) :: pyReprFields kvs

end

/-- Python `str(value)`: a string is returned as-is, anything else renders
like `repr`. -/
def pyStr : J → String
  | J.str s => s
  | j => pyRepr j

/-- Python `a or b` for `a` an optional string (`None` or `str`) and `b` a
string: returns `a` when it is a non-empty string, else `b`. -/
def pyOr (a : Option String) (b : String) : String :=
  match a with
  | some s => if s = ("") then b else s
  | none => b

/-- Python truthiness of a JSON-parsed value. -/
def pyTruthy : J → Bool
  | J.str s => !(s == (""))
  | J.num n => !(n == 0)
  | J.bool b => b
  | J.null => false
  | J.arr l => !l.isEmpty
  | J.obj kvs => !kvs.isEmpty

/-- Python iteration over a JSON-parsed value: lists yield elements, strings
yield one-character strings, dicts yield their keys, anything else raises
`TypeError`. -/
def pyIter : J → Except String (List J)
  | J.arr l => Except.ok l
  | J.str s => Except.ok (s.toList.map (fun c => J.str (String.mk [c])))
  | J.obj kvs => Except.ok (kvs.map (fun kv => J.str kv.1))
  | _ => Except.error ("TypeError")

/-- Python `value.get(key, default)`: defined on dicts only — on any other
value the attribute access raises `AttributeError`. -/
def pyGet (j : J) (k : String) (dflt : J) : Except String J :=
  match j with
  | J.obj kvs => Except.ok ((kvs.lookup k).getD dflt)
  | _ => Except.error ("AttributeError")

/-- An HTTP response as the fetch code observes it: the status code, the
JSON document of `resp.json()` when the body parses as JSON (`none` models
the decode error that call raises otherwise), and the UTF-8 decoded body for
`resp.read()`. -/
structure HttpResp where
  status : Nat
  json? : Option J
  raw : String

/-- The status of the second GET that downloads a resolved image URL. -/
structure ImgDownload where
  status : Nat

/-- One attempt of `_generic_fetch_text` (main.py:302-317), as the exception
(`Except.error` with the exception text) or the returned payload (always
paired with the success flag `True` in the source). With `use_json` the JSON
document is searched with `_extract_first_string` and the payload is
`txt or str(data)`; otherwise the payload is the decoded body. -/
def textAttemptOutcome (useJson : Bool) (r : HttpResp) : Except String String :=
  if r.status ≠ 200 then Except.error (("状态码: ") ++ natRepr r.status)
  else if useJson then
    match r.json? with
    | none => Except.error ("JSON解析失败")
    | some data => Except.ok (pyOr (extractFirstString data) (pyStr data))
  else Except.ok r.raw

/-- One attempt of `_generic_fetch_image_path` (main.py:329-353). With
`use_json` the JSON document is searched with `_extract_first_image_url`
(`if not img_url` also treats an empty string as missing), then the URL is
downloaded with a second GET; otherwise the body itself is the image. A
successful attempt materializes the bytes into a fresh
`NamedTemporaryFile(suffix=".jpeg")` and returns its (never empty) name. -/
def imageAttemptOutcome (useJson : Bool) (r : HttpResp) (dl : String → ImgDownload)
    (tmpPrefix : String) : Except String String :=
  if r.status ≠ 200 then Except.error (("状态码: ") ++ natRepr r.status)
  else if useJson then
    match r.json? with
    | none => Except.error ("JSON解析失败")
    | some data =>
      match extractFirstImageUrl data with
      | none => Except.error ("JSON未找到图片URL")
      | some u =>
        if u = ("") then Except.error ("JSON未找到图片URL")
        else if (dl u).status ≠ 200 then
          Except.error (("图片状态码: ") ++ natRepr (dl u).status)
        else Except.ok (tmpPrefix ++ (".jpeg"))
  else Except.ok (tmpPrefix ++ (".jpeg"))

/-- One attempt of `_fetch_news_text` (main.py:159-180). In the JSON branch
the code reads `data.get("data", {})`, then `payload.get("date") or date`,
`payload.get("tip") or ""`, `payload.get("news") or []`, builds the header
line `f"{date_str} 每日60秒新闻"`, one `f"• {item}"` line per news item and
an optional `f"提示：{tip}"` line, and joins them with newlines. -/
def newsTextAttempt (fmtJson : Bool) (date : String) (r : HttpResp) :
    Except String String :=
  if r.status ≠ 200 then Except.error (("API返回错误代码: ") ++ natRepr r.status)
  else if fmtJson then
    match r.json? with
    | none => Except.error ("JSON解析失败")
    | some data =>
      match pyGet data ("data") (J.obj []) with
      | Except.error e => Except.error e
      | Except.ok payload =>
        match pyGet payload ("date") J.null, pyGet payload ("tip") J.null,
            pyGet payload ("news") J.null with
        | Except.ok dv, Except.ok tv, Except.ok nv =>
          let dateStr := if pyTruthy dv then pyStr dv else date
          let tipV := if pyTruthy tv then tv else J.str ("")
          let newsV := if pyTruthy nv then nv else J.arr []
          match pyIter newsV with
          | Except.error e => Except.error e
          | Except.ok items =>
            let lines := (dateStr ++ (" 每日60秒新闻")) ::
              items.map (fun it => ("• ") ++ pyStr it)
            let lines2 := if pyTruthy tipV
              then lines ++ [("提示：") ++ pyStr tipV] else lines
            Except.ok (pyJoin ("\n") lines2)
        | _, _, _ => Except.error ("AttributeError")
  else Except.ok r.raw

/-- The retry loop shared by the fetch functions (main.py:159-186, 302-323,
329-359): `for attempt in range(retries)` with a per-attempt body that either
returns `(payload, True)` or raises; a raise on the last attempt returns
`(errPrefix + e, False)`, any other raise is followed by `asyncio.sleep(1)`
and the next attempt. The fuel argument counts the remaining attempts (the
loop is entered with `fuel = retries`, and `fuel = 1` is exactly the
`attempt == retries - 1` test); the unreachable fall-through after the loop
returns `("未知错误", False)`. The result carries the `(payload, flag)` pair,
the number of attempts made, and the list of backoff sleep durations. -/
def fetchRetryLoop (o : Nat → Except String String) (errPrefix : String) :
    Nat → Nat → (String × Bool) × Nat × List Nat
  | 0, _ => ((("未知错误"), false), 0, [])
  | fuel + 1, i =>
    match o i with
    | Except.ok p => ((p, true), 1, [])
    | Except.error e =>
      if fuel = 0 then ((errPrefix ++ e, false), 1, [])
      else
        let r := fetchRetryLoop o errPrefix fuel (i + 1)
        (r.1, r.2.1 + 1, 1 :: r.2.2)

/-- The error prefix of the generic fetchers (main.py:321, 357). -/
def genericErrPrefix : String := "接口报错: "

/-- The error prefix of the news fetchers (main.py:184, 227). -/
def newsErrPrefix : String := "接口报错，请联系管理员:"

/-- Model of `_generic_fetch_text` (main.py:298-323): `retries = 3`,
`use_json = (fmt == "image")` is passed in as a Boolean, and the response of
attempt `i` is `resps i`. -/
def genericFetchText (useJson : Bool) (resps : Nat → HttpResp) :
    (String × Bool) × Nat × List Nat :=
  fetchRetryLoop (fun i => textAttemptOutcome useJson (resps i)) genericErrPrefix 3 0

/-- Model of `_generic_fetch_image_path` (main.py:325-359): `retries = 3`,
`use_json = (fmt == "text")`; `dl` gives the second GET for a resolved image
URL and `tmpPrefixes i` the temporary-file name prefix of attempt `i`. -/
def genericFetchImage (useJson : Bool) (resps : Nat → HttpResp)
    (dl : String → ImgDownload) (tmpPrefixes : Nat → String) :
    (String × Bool) × Nat × List Nat :=
  fetchRetryLoop (fun i => imageAttemptOutcome useJson (resps i) dl (tmpPrefixes i))
    genericErrPrefix 3 0

/-- Model of `_fetch_news_text` (main.py:154-186): `retries = 3`,
`fmt_json = (self.format == "image")`. -/
def newsFetchText (fmtJson : Bool) (date : String) (resps : Nat → HttpResp) :
    (String × Bool) × Nat × List Nat :=
  fetchRetryLoop (fun i => newsTextAttempt fmtJson date (resps i)) newsErrPrefix 3 0

/-- The four content sources of the plugin. -/
inductive Source where
  | news
  | moyu
  | gold
  | ai
deriving DecidableEq

/-- The per-source enable flags read from the configuration. -/
structure PushFlags where
  enableNews : Bool
  enableMoyu : Bool
  enableGold : Bool
  enableAi : Bool

/-- The sources `_daily_task` dispatches (`_send_to_groups` calls) in one
firing slot, in order (main.py:421-445): news, then the skip-work calendar
(moyu), then gold, each guarded by its enable flag; the AI digest is
additionally skipped when `datetime.now().weekday()` is in `(5, 6)`
(Saturday or Sunday in Python's Monday=0 convention). -/
def dailyDispatchSources (cfg : PushFlags) (weekday : Nat) : List Source :=
  (if cfg.enableNews then [Source.news] else []) ++
  (if cfg.enableMoyu then [Source.moyu] else []) ++
  (if cfg.enableGold then [Source.gold] else []) ++
  (if cfg.enableAi then
    (if weekday = 5 ∨ weekday = 6 then [] else [Source.ai]) else [])

/-- The corrected contract of `_extract_first_string`: the root is returned
as-is when it is itself a string (even empty); otherwise the result is the
first non-empty string of the depth-first enumeration. -/
def efsSpec (j : J) : Option String :=
  match j with
  | J.str s => some s
  | _ => firstNonEmpty (dfsStrings j)

theorem firstSuchThat_append (p : String → Bool) (a b : List String) :
    firstSuchThat p (a ++ b) =
      match firstSuchThat p a with
      | some s => some s
      | none => firstSuchThat p b := by
  unfold firstSuchThat
  rw [List.filter_append]
  cases a.filter p <;> simp

theorem firstSuchThat_pred {p : String → Bool} {l : List String} {s : String}
    (h : firstSuchThat p l = some s) : p s = true := by
  unfold firstSuchThat at h
  cases hf : l.filter p with
  | nil => rw [hf] at h; simp at h
  | cons x t =>
    rw [hf] at h
    simp at h
    have hx : x ∈ l.filter p := by rw [hf]; exact List.mem_cons_self _ _
    have hp := (List.mem_filter.mp hx).2
    rwa [h] at hp

theorem parseTime_bounds {s : String} {h m : Nat}
    (hp : parseTime s = some (h, m)) : h ≤ 23 ∧ m ≤ 59 := by
  unfold parseTime at hp
  split at hp
  · split at hp
    · split at hp
      · rename_i hi mi _ _ hcond
        simp only [Option.some.injEq, Prod.mk.injEq] at hp
        obtain ⟨hh, hm⟩ := hp
        omega
      · simp at hp
    · simp at hp
  · simp at hp

theorem foldl_min_le (l : List Nat) (a : Nat) :
    l.foldl min a ≤ a ∧ ∀ b ∈ l, l.foldl min a ≤ b := by
  induction l generalizing a with
  | nil => simp
  | cons x xs ih =>
    obtain ⟨h1, h2⟩ := ih (min a x)
    refine ⟨le_trans h1 (min_le_left _ _), ?_⟩
    intro b hb
    rcases List.mem_cons.mp hb with rfl | hb
    · exact le_trans h1 (min_le_right _ _)
    · exact h2 b hb

theorem foldl_min_mem (l : List Nat) (a : Nat) :
    l.foldl min a = a ∨ l.foldl min a ∈ l := by
  induction l generalizing a with
  | nil => simp
  | cons x xs ih =>
    rcases ih (min a x) with h | h
    · rw [List.foldl_cons, h]
      rcases Nat.le_total a x with hax | hxa
      · left
        rw [min_eq_left hax]
      · right
        rw [min_eq_right hxa]
        exact List.mem_cons_self _ _
    · right
      rw [List.foldl_cons]
      exact List.mem_cons_of_mem _ h

theorem triggerCandidate_gt (now h m : Nat) : now < triggerCandidate now h m := by
  simp only [triggerCandidate, timeOffsetUsec, usecPerDay]
  split <;> omega

theorem triggerCandidate_mod {h m : Nat} (hh : h ≤ 23) (hm : m ≤ 59) (now : Nat) :
    triggerCandidate now h m % usecPerDay = timeOffsetUsec h m := by
  simp only [triggerCandidate, timeOffsetUsec, usecPerDay]
  split <;> omega

theorem triggerCandidate_day {h m : Nat} (hh : h ≤ 23) (hm : m ≤ 59) (now : Nat) :
    triggerCandidate now h m / usecPerDay = now / usecPerDay ∨
      triggerCandidate now h m / usecPerDay = now / usecPerDay + 1 := by
  simp only [triggerCandidate, timeOffsetUsec, usecPerDay]
  split
  · right
    omega
  · left
    omega

/-- C1: for every trigger list and instant `now` on which `_get_next_push_time`
succeeds, the returned instant is strictly greater than `now`, equals the
candidate of some parsed trigger — today at that trigger's hour:minute with
seconds and microseconds zero, advanced by exactly one day when the same-day
instant is `<= now` (so its day is the current or the next one) — and is the
minimum over the candidates of all parsed triggers. -/
theorem schedule_next_firing_spec (ts : List String) (now r : Nat)
    (hok : getNextPushTime ts now = Except.ok r) :
    now < r ∧
    (∃ s, s ∈ ts ∧ ∃ h m, parseTime s = some (h, m) ∧
      r = triggerCandidate now h m ∧
      r % usecPerDay = timeOffsetUsec h m ∧
      (r / usecPerDay = now / usecPerDay ∨ r / usecPerDay = now / usecPerDay + 1)) ∧
    (∀ s, s ∈ ts → ∀ h m, parseTime s = some (h, m) →
      r ≤ triggerCandidate now h m) := by
  unfold getNextPushTime at hok
  cases hc : ts.filterMap
      (fun s => (parseTime s).map (fun hm => triggerCandidate now hm.1 hm.2)) with
  | nil => rw [hc] at hok; simp at hok
  | cons c cs =>
    rw [hc] at hok
    simp only [Except.ok.injEq] at hok
    have hmem : r ∈ c :: cs := by
      rcases foldl_min_mem cs c with hh | hh
      · rw [← hok, hh]
        exact List.mem_cons_self _ _
      · rw [← hok]
        exact List.mem_cons_of_mem _ hh
    have hle : ∀ b ∈ c :: cs, r ≤ b := by
      intro b hb
      rcases List.mem_cons.mp hb with rfl | hb
      · rw [← hok]
        exact (foldl_min_le cs b).1
      · rw [← hok]
        exact (foldl_min_le cs c).2 b hb
    rw [← hc] at hmem
    obtain ⟨s, hs, hfs⟩ := List.mem_filterMap.mp hmem
    rw [Option.map_eq_some'] at hfs
    obtain ⟨⟨h, m⟩, hps, hcand⟩ := hfs
    obtain ⟨hhle, hmle⟩ := parseTime_bounds hps
    refine ⟨?_, ⟨s, hs, h, m, hps, hcand.symm, ?_, ?_⟩, ?_⟩
    · rw [← hcand]
      exact triggerCandidate_gt now h m
    · rw [← hcand]
      exact triggerCandidate_mod hhle hmle now
    · rw [← hcand]
      exact triggerCandidate_day hhle hmle now
    · intro s' hs' h' m' hp'
      have hin : triggerCandidate now h' m' ∈ c :: cs := by
        rw [← hc]
        exact List.mem_filterMap.mpr ⟨s', hs', by rw [hp']; rfl⟩
      exact hle _ hin

/-- Witness for C1 at triggers `["08:00"]` and `now = 0` (midnight): the next
firing is `08:00:00.000000` of the same day, `28800000000` microseconds. -/
theorem schedule_next_firing_spec_witness :
    getNextPushTime [("08:00")] 0 = Except.ok 28800000000 ∧ 0 < 28800000000 :=
  ⟨by rfl, (schedule_next_firing_spec [("08:00")] 0 28800000000 (by rfl)).1⟩

/-- C8: a trigger string that does not parse as a valid HH:MM time is dropped
(it contributes nothing to the result, which is computed from the remaining
strings alone) and logged among the warnings, not fatal; and when no valid
trigger remains the computation fails with the `ValueError` carrying
`noValidPushTimeMsg` instead of returning an instant. -/
theorem schedule_invalid_trigger_spec (s : String) (ts : List String) (now : Nat) :
    (parseTime s = none →
      getNextPushTime (s :: ts) now = getNextPushTime ts now ∧
      s ∈ invalidPushTimes (s :: ts)) ∧
    (ts.filterMap (fun t => parseTime t) = [] →
      getNextPushTime ts now = Except.error noValidPushTimeMsg) := by
  constructor
  · intro hn
    constructor
    · unfold getNextPushTime
      rw [List.filterMap_cons, hn]
      rfl
    · unfold invalidPushTimes
      rw [List.filter_cons]
      simp [hn]
  · intro he
    unfold getNextPushTime
    have hnil : ts.filterMap
        (fun s => (parseTime s).map (fun hm => triggerCandidate now hm.1 hm.2)) = [] := by
      rw [List.filterMap_eq_nil_iff]
      intro a ha
      have := List.filterMap_eq_nil_iff.mp he a ha
      rw [this]
      rfl
    rw [hnil]

/-- Witness for C8: `"25:00"` (hour out of range) is dropped, and with it gone
the trigger set is empty, so the computation raises the `ValueError`. -/
theorem schedule_invalid_trigger_spec_witness :
    parseTime ("25:00") = none ∧
    getNextPushTime [("25:00")] 0 = Except.error noValidPushTimeMsg := by
  have h := schedule_invalid_trigger_spec ("25:00") [] 0
  refine ⟨by decide, ?_⟩
  have h1 := (h.1 (by decide)).1
  have h2 := h.2 (by decide)
  rw [h1, h2]

theorem sendLoop_all_ok (outcome : Nat → Option String) (isImage : Bool)
    (payload : String) :
    ∀ (groups : List Nat) (idx : Nat),
      (∀ j, j < groups.length → outcome (idx + j) = none) →
      (sendLoop groups outcome isImage payload idx).2 = none ∧
      (sendLoop groups outcome isImage payload idx).1.countP isSendEv = groups.length ∧
      (sendLoop groups outcome isImage payload idx).1.countP isRemoveEv = 0 ∧
      (sendLoop groups outcome isImage payload idx).1.countP isLogEv = 0 := by
  intro groups
  induction groups with
  | nil => intro idx _; simp [sendLoop]
  | cons t rest ih =>
    intro idx hall
    have h0 : outcome idx = none := by
      have := hall 0 (by simp)
      simpa using this
    have hrest : ∀ j, j < rest.length → outcome (idx + 1 + j) = none := by
      intro j hj
      have := hall (j + 1) (by simp; omega)
      rwa [show idx + (j + 1) = idx + 1 + j by omega] at this
    obtain ⟨he, hs, hr, hl⟩ := ih (idx + 1) hrest
    simp only [sendLoop, h0]
    refine ⟨he, ?_, ?_, ?_⟩
    · simp [List.countP_cons, isSendEv, hs]
    · simp [List.countP_cons, isRemoveEv, hr]
    · simp [List.countP_cons, isLogEv, hl]

theorem sendLoop_first_fail (outcome : Nat → Option String) (isImage : Bool)
    (payload : String) :
    ∀ (groups : List Nat) (idx k : Nat) (e : String),
      k < groups.length →
      (∀ j, j < k → outcome (idx + j) = none) →
      outcome (idx + k) = some e →
      (sendLoop groups outcome isImage payload idx).2 = some e ∧
      (sendLoop groups outcome isImage payload idx).1.countP isSendEv = k + 1 ∧
      (sendLoop groups outcome isImage payload idx).1.countP isRemoveEv = 0 ∧
      (sendLoop groups outcome isImage payload idx).1.countP isLogEv = 0 := by
  intro groups
  induction groups with
  | nil => intro idx k e hk _ _; simp at hk
  | cons t rest ih =>
    intro idx k e hk hpre hfail
    cases k with
    | zero =>
      have h0 : outcome idx = some e := by simpa using hfail
      simp [sendLoop, h0, List.countP_cons, isSendEv, isRemoveEv, isLogEv]
    | succ k' =>
      have h0 : outcome idx = none := by
        have := hpre 0 (by omega)
        simpa using this
      have hpre' : ∀ j, j < k' → outcome (idx + 1 + j) = none := by
        intro j hj
        have := hpre (j + 1) (by omega)
        rwa [show idx + (j + 1) = idx + 1 + j by omega] at this
      have hfail' : outcome (idx + 1 + k') = some e := by
        rwa [show idx + (k' + 1) = idx + 1 + k' by omega] at hfail
      obtain ⟨he, hs, hr, hl⟩ :=
        ih (idx + 1) k' e (by simp at hk; omega) hpre' hfail'
      simp only [sendLoop, h0]
      refine ⟨he, ?_, ?_, ?_⟩
      · simp [List.countP_cons, isSendEv, hs]
      · simp [List.countP_cons, isRemoveEv, hr]
      · simp [List.countP_cons, isLogEv, hl]

/-- C2 counterexample: image payload `"a.jpeg"`, three destinations, the send
to the second destination fails. The code attempts only 2 of the 3 sends
(the failure aborts the loop over the remaining destinations) and the backing
temporary file is never deleted: the exception from the send is caught by the
outer handler, skipping `os.remove`. -/
theorem dispatch_fanout_image_counterexample :
    sendToGroups (("a.jpeg"), true) true [1, 2, 3]
        (fun i => if i = 1 then some ("boom") else none) =
      [Ev.send 1 true ("a.jpeg"), Ev.sleep 2, Ev.send 2 true ("a.jpeg"),
        Ev.logError (pushFailLog ("boom"))] ∧
    (sendToGroups (("a.jpeg"), true) true [1, 2, 3]
        (fun i => if i = 1 then some ("boom") else none)).countP isSendEv = 2 ∧
    (sendToGroups (("a.jpeg"), true) true [1, 2, 3]
        (fun i => if i = 1 then some ("boom") else none)).countP isRemoveEv = 0 := by
  refine ⟨by rfl, by rfl, by rfl⟩

/-- C2 amended: when every send succeeds, exactly `n` sends are attempted and
the temporary file is deleted exactly once, after the full destination list;
but when the send to destination `k` fails, only `k + 1` sends are attempted
— the failure is logged by the outer handler and aborts the loop over the
remaining destinations — and the temporary file is not deleted at all. -/
theorem dispatch_fanout_image_spec (groups : List Nat)
    (outcome : Nat → Option String) (path : String) :
    ((∀ i, i < groups.length → outcome i = none) →
      (sendToGroups ((path), true) true groups outcome).countP isSendEv = groups.length ∧
      (sendToGroups ((path), true) true groups outcome).countP isRemoveEv = 1 ∧
      (sendToGroups ((path), true) true groups outcome).getLast? =
        some (Ev.removeFile path)) ∧
    (∀ k e, k < groups.length → (∀ j, j < k → outcome j = none) →
      outcome k = some e →
      (sendToGroups ((path), true) true groups outcome).countP isSendEv = k + 1 ∧
      (sendToGroups ((path), true) true groups outcome).countP isRemoveEv = 0 ∧
      (sendToGroups ((path), true) true groups outcome).countP isLogEv = 1) := by
  constructor
  · intro hall
    obtain ⟨he, hs, hr, hl⟩ := sendLoop_all_ok outcome true path groups 0
      (by intro j hj; simpa using hall j hj)
    cases hsl : sendLoop groups outcome true path 0 with
    | mk tr err =>
      rw [hsl] at he hs hr
      subst he
      simp only [sendToGroups, hsl]
      refine ⟨?_, ?_, ?_⟩
      · simpa [List.countP_append, isSendEv] using hs
      · simpa [List.countP_append, isRemoveEv] using hr
      · simp
  · intro k e hk hpre hfail
    obtain ⟨he, hs, hr, hl⟩ := sendLoop_first_fail outcome true path groups 0 k e
      hk (by intro j hj; simpa using hpre j hj) (by simpa using hfail)
    cases hsl : sendLoop groups outcome true path 0 with
    | mk tr err =>
      rw [hsl] at he hs hr hl
      subst he
      simp only [sendToGroups, hsl]
      refine ⟨?_, ?_, ?_⟩
      · simpa [List.countP_append, isSendEv] using hs
      · simpa [List.countP_append, isRemoveEv] using hr
      · simp [List.countP_append, isLogEv, hl]

/-- Witness for the amended C2: three destinations, all sends succeed —
exactly 3 sends, the file removal is the last event and happens once. -/
theorem dispatch_fanout_image_spec_witness :
    (sendToGroups (("p.jpeg"), true) true [1, 2, 3] (fun _ => none)).countP isSendEv = 3 ∧
    (sendToGroups (("p.jpeg"), true) true [1, 2, 3] (fun _ => none)).countP isRemoveEv = 1 ∧
    (sendToGroups (("p.jpeg"), true) true [1, 2, 3] (fun _ => none)).getLast? =
      some (Ev.removeFile ("p.jpeg")) :=
  (dispatch_fanout_image_spec [1, 2, 3] (fun _ => none) ("p.jpeg")).1
    (by intro i _; rfl)

/-- C3 counterexample: failed fetch result with reason `"接口报错: boom"` and
three configured destinations. The code sends nothing at all — the failure
is only logged — contradicting "delivers the failure reason as a plain-text
message to every configured destination". -/
theorem dispatch_failed_counterexample :
    sendToGroups (("接口报错: boom"), false) false [1, 2, 3] (fun _ => none) =
      [Ev.logError (pushFailLog ("接口报错: boom"))] ∧
    (sendToGroups (("接口报错: boom"), false) false [1, 2, 3]
        (fun _ => none)).countP isSendEv = 0 := by
  refine ⟨by rfl, by rfl⟩

/-- C3 amended: when the fetch returns a failed result, `_send_to_groups`
logs the failure reason and sends nothing to any destination (the degraded
path is silent toward the destinations); no exception escapes — the whole
body is wrapped in the catch-all handler, whose only effect is the log. -/
theorem dispatch_failed_result_spec (reason : String) (isImage : Bool)
    (groups : List Nat) (outcome : Nat → Option String) :
    sendToGroups ((reason), false) isImage groups outcome =
      [Ev.logError (pushFailLog reason)] ∧
    (sendToGroups ((reason), false) isImage groups outcome).countP isSendEv = 0 := by
  constructor
  · rfl
  · rfl

theorem fetchRetryLoop_ok0 (o : Nat → Except String String) (pre p : String)
    (h0 : o 0 = Except.ok p) :
    fetchRetryLoop o pre 3 0 = ((p, true), 1, []) := by
  simp [fetchRetryLoop, h0]

theorem fetchRetryLoop_ok1 (o : Nat → Except String String) (pre e0 p : String)
    (h0 : o 0 = Except.error e0) (h1 : o 1 = Except.ok p) :
    fetchRetryLoop o pre 3 0 = ((p, true), 2, [1]) := by
  simp [fetchRetryLoop, h0, h1]

theorem fetchRetryLoop_ok2 (o : Nat → Except String String) (pre e0 e1 p : String)
    (h0 : o 0 = Except.error e0) (h1 : o 1 = Except.error e1)
    (h2 : o 2 = Except.ok p) :
    fetchRetryLoop o pre 3 0 = ((p, true), 3, [1, 1]) := by
  simp [fetchRetryLoop, h0, h1, h2]

theorem fetchRetryLoop_allFail (o : Nat → Except String String) (pre e0 e1 e2 : String)
    (h0 : o 0 = Except.error e0) (h1 : o 1 = Except.error e1)
    (h2 : o 2 = Except.error e2) :
    fetchRetryLoop o pre 3 0 = ((pre ++ e2, false), 3, [1, 1]) := by
  simp [fetchRetryLoop, h0, h1, h2]

/-- C7: the fetch retry loop with budget 3 returns a succeeding attempt's
payload immediately (one attempt per prior failure plus the success, one
1-second backoff per non-final failure), and when every attempt fails it
returns the failure pair carrying the last error's description after exactly
3 attempts and 2 backoff waits — so failing twice then succeeding takes
exactly 3 attempts and 2 waits. Both generic fetchers instantiate this loop
with budget 3. -/
theorem payload_fetch_retry_spec (o : Nat → Except String String) (pre : String) :
    (∀ p, o 0 = Except.ok p → fetchRetryLoop o pre 3 0 = ((p, true), 1, [])) ∧
    (∀ e0 p, o 0 = Except.error e0 → o 1 = Except.ok p →
      fetchRetryLoop o pre 3 0 = ((p, true), 2, [1])) ∧
    (∀ e0 e1 p, o 0 = Except.error e0 → o 1 = Except.error e1 →
      o 2 = Except.ok p → fetchRetryLoop o pre 3 0 = ((p, true), 3, [1, 1])) ∧
    (∀ e0 e1 e2, o 0 = Except.error e0 → o 1 = Except.error e1 →
      o 2 = Except.error e2 →
      fetchRetryLoop o pre 3 0 = ((pre ++ e2, false), 3, [1, 1])) ∧
    (∀ useJson resps, genericFetchText useJson resps =
      fetchRetryLoop (fun i => textAttemptOutcome useJson (resps i))
        genericErrPrefix 3 0) ∧
    (∀ useJson resps dl tmps, genericFetchImage useJson resps dl tmps =
      fetchRetryLoop (fun i => imageAttemptOutcome useJson (resps i) dl (tmps i))
        genericErrPrefix 3 0) :=
  ⟨fun p h0 => fetchRetryLoop_ok0 o pre p h0,
   fun e0 p h0 h1 => fetchRetryLoop_ok1 o pre e0 p h0 h1,
   fun e0 e1 p h0 h1 h2 => fetchRetryLoop_ok2 o pre e0 e1 p h0 h1 h2,
   fun e0 e1 e2 h0 h1 h2 => fetchRetryLoop_allFail o pre e0 e1 e2 h0 h1 h2,
   fun _ _ => rfl, fun _ _ _ _ => rfl⟩

/-- Witness for C7: an endpoint failing twice then succeeding — the payload
is returned after exactly 3 attempts and 2 one-second backoff waits. -/
theorem payload_fetch_retry_spec_witness :
    fetchRetryLoop (fun i => if i < 2 then Except.error ("E") else Except.ok ("P"))
        genericErrPrefix 3 0 = ((("P"), true), 3, [1, 1]) :=
  (payload_fetch_retry_spec
      (fun i => if i < 2 then Except.error ("E") else Except.ok ("P"))
      genericErrPrefix).2.2.1 ("E") ("E") ("P") rfl rfl rfl

/-- C6 counterexample: a JSON response whose document is the empty object
`\x7b\x7d` contains no string, yet in text mode the attempt succeeds on the
first try with the stringified document `str(data)` as payload — an
extractor miss is not a retryable failure in text mode. -/
theorem extractor_no_match_text_counterexample :
    extractFirstString (J.obj []) = none ∧
    genericFetchText true (fun _ => ⟨200, some (J.obj []), ("")⟩) =
      ((("\x7b\x7d"), true), 1, []) :=
  ⟨rfl, rfl⟩

/-- C6 amended: in image mode the absence of a plausible image URL makes the
attempt raise `"JSON未找到图片URL"`, a retryable failure — with every
response lacking a match the fetch makes all 3 attempts (2 backoffs) and
returns the failed pair; in text mode the absence of a first string does not
fail the attempt, which instead succeeds with `txt or str(data)`, i.e. the
stringified document. -/
theorem extractor_no_match_spec (data : J) (raw : String) (resps : Nat → HttpResp)
    (dl : String → ImgDownload) (tmps : Nat → String)
    (hno : extractFirstImageUrl data = none)
    (hresp : ∀ i, resps i = ⟨200, some data, raw⟩) :
    imageAttemptOutcome true (resps 0) dl (tmps 0) =
      Except.error ("JSON未找到图片URL") ∧
    genericFetchImage true resps dl tmps =
      ((genericErrPrefix ++ ("JSON未找到图片URL"), false), 3, [1, 1]) ∧
    textAttemptOutcome true (resps 0) =
      Except.ok (pyOr (extractFirstString data) (pyStr data)) := by
  have hatt : ∀ i, imageAttemptOutcome true (resps i) dl (tmps i) =
      Except.error ("JSON未找到图片URL") := by
    intro i
    rw [hresp i]
    simp [imageAttemptOutcome, hno]
  refine ⟨hatt 0, ?_, ?_⟩
  · exact fetchRetryLoop_allFail _ _ _ _ _ (hatt 0) (hatt 1) (hatt 2)
  · rw [hresp 0]
    simp [textAttemptOutcome]

/-- Witness for the amended C6: the empty-object document has no image URL;
the image fetch fails all 3 attempts and reports the extractor miss. -/
theorem extractor_no_match_spec_witness :
    genericFetchImage true (fun _ => ⟨200, some (J.obj []), ("")⟩)
        (fun _ => ⟨200⟩) (fun _ => ("t")) =
      ((genericErrPrefix ++ ("JSON未找到图片URL"), false), 3, [1, 1]) :=
  (extractor_no_match_spec (J.obj []) ("") (fun _ => ⟨200, some (J.obj []), ("")⟩)
    (fun _ => ⟨200⟩) (fun _ => ("t")) rfl (fun _ => rfl)).2.1

theorem string_ne_empty_of_length_pos {s : String} (h : 0 < s.length) :
    s ≠ ("") := by
  intro he
  rw [he] at h
  simp at h

theorem append_right_ne_empty (a b : String) (hb : b ≠ ("")) : a ++ b ≠ ("") := by
  apply string_ne_empty_of_length_pos
  rw [String.length_append]
  have : 0 < b.length := by
    by_contra hle
    push_neg at hle
    interval_cases hlen : b.length
    · exact hb (by
        cases b with
        | mk data =>
          cases data with
          | nil => rfl
          | cons c cs => simp [String.length] at hlen)
  omega

theorem pyJoin_cons_ne_empty (sep a : String) (l : List String) (ha : a ≠ ("")) :
    pyJoin sep (a :: l) ≠ ("") := by
  cases l with
  | nil => exact ha
  | cons x xs =>
    show a ++ sep ++ pyJoin sep (x :: xs) ≠ ("")
    apply string_ne_empty_of_length_pos
    rw [String.length_append, String.length_append]
    have : 0 < a.length := by
      by_contra hle
      push_neg at hle
      interval_cases hlen : a.length
      · exact ha (by
          cases a with
          | mk data =>
            cases data with
            | nil => rfl
            | cons c cs => simp [String.length] at hlen)
    omega

theorem natReprAux_ne_nil (n : Nat) : natReprAux (n + 1) n ≠ [] := by
  unfold natReprAux
  split
  · simp
  · simp

theorem natRepr_ne_empty (n : Nat) : natRepr n ≠ ("") := by
  intro h
  exact natReprAux_ne_nil n (congrArg String.data h)

theorem intRepr_ne_empty (n : Int) : intRepr n ≠ ("") := by
  cases n with
  | ofNat m => exact natRepr_ne_empty m
  | negSucc m => exact append_right_ne_empty ("-") _ (natRepr_ne_empty (m + 1))

theorem pyRepr_ne_empty (j : J) : pyRepr j ≠ ("") := by
  cases j with
  | str s => exact append_right_ne_empty _ ("\x27") (by decide)
  | num n => exact intRepr_ne_empty n
  | bool b => cases b <;> decide
  | null => decide
  | arr l => exact append_right_ne_empty _ ("]") (by decide)
  | obj kvs => exact append_right_ne_empty _ ("\x7d") (by decide)

theorem extractFsItems_ne_empty :
    ∀ (l : List J) (s : String), extractFsItems l = some s → s ≠ ("") := by
  intro l
  induction l with
  | nil => intro s h; simp [extractFsItems] at h
  | cons x xs ih =>
    intro s h
    unfold extractFsItems at h
    cases hx : extractFirstString x with
    | none =>
      rw [hx] at h
      exact ih s h
    | some t =>
      simp only [hx] at h
      by_cases ht : t = ("")
      · rw [if_pos ht] at h
        exact ih s h
      · rw [if_neg ht] at h
        simp only [Option.some.injEq] at h
        exact h ▸ ht

theorem extractFsFields_ne_empty :
    ∀ (kvs : List (String × J)) (s : String), extractFsFields kvs = some s → s ≠ ("") := by
  intro kvs
  induction kvs with
  | nil => intro s h; simp [extractFsFields] at h
  | cons kv rest ih =>
    intro s h
    cases kv with
    | mk k v =>
      unfold extractFsFields at h
      cases hx : extractFirstString v with
      | none =>
        rw [hx] at h
        exact ih s h
      | some t =>
        simp only [hx] at h
        by_cases ht : t = ("")
        · rw [if_pos ht] at h
          exact ih s h
        · rw [if_neg ht] at h
          simp only [Option.some.injEq] at h
          exact h ▸ ht

theorem extractFirstString_nonroot_ne_empty {j : J} {s : String}
    (hj : ∀ t, j ≠ J.str t) (h : extractFirstString j = some s) : s ≠ ("") := by
  cases j with
  | str t => exact absurd rfl (hj t)
  | obj kvs => exact extractFsFields_ne_empty kvs s h
  | arr l => exact extractFsItems_ne_empty l s h
  | num n => simp [extractFirstString] at h
  | bool b => simp [extractFirstString] at h
  | null => simp [extractFirstString] at h

theorem pyOr_extract_ne_empty {j : J} (hj : ∀ t, j ≠ J.str t) :
    pyOr (extractFirstString j) (pyStr j) ≠ ("") := by
  have hpy : pyStr j = pyRepr j := by
    cases j with
    | str t => exact absurd rfl (hj t)
    | num n => rfl
    | bool b => rfl
    | null => rfl
    | arr l => rfl
    | obj kvs => rfl
  cases hx : extractFirstString j with
  | none =>
    simp only [pyOr, hpy]
    exact pyRepr_ne_empty j
  | some t =>
    have ht := extractFirstString_nonroot_ne_empty hj hx
    simp only [pyOr, if_neg ht]
    exact ht

theorem imageAttempt_ok_path (useJson : Bool) (r : HttpResp)
    (dl : String → ImgDownload) (tp s : String)
    (h : imageAttemptOutcome useJson r dl tp = Except.ok s) :
    s = tp ++ (".jpeg") := by
  unfold imageAttemptOutcome at h
  split at h
  · simp at h
  · split at h
    · split at h
      · simp at h
      · split at h
        · simp at h
        · split at h
          · simp at h
          · split at h
            · simp at h
            · simp only [Except.ok.injEq] at h
              exact h.symm
    · simp only [Except.ok.injEq] at h
      exact h.symm

theorem textAttempt_raw_ok (r : HttpResp) (s : String)
    (h : textAttemptOutcome false r = Except.ok s) : s = r.raw := by
  unfold textAttemptOutcome at h
  split at h
  · simp at h
  · simp only [Bool.false_eq_true, if_false, Except.ok.injEq] at h
    exact h.symm

theorem textAttempt_json_empty_iff (data : J) (raw s : String)
    (h : textAttemptOutcome true ⟨200, some data, raw⟩ = Except.ok s) :
    (s = ("") ↔ data = J.str ("")) := by
  have hs : s = pyOr (extractFirstString data) (pyStr data) := by
    simp only [textAttemptOutcome] at h
    simp at h
    exact h.symm
  rw [hs]
  cases data with
  | str t =>
    have hval : pyOr (extractFirstString (J.str t)) (pyStr (J.str t)) = t := by
      by_cases ht : t = ("")
      · simp [extractFirstString, pyStr, pyOr, ht]
      · simp [extractFirstString, pyStr, pyOr, ht]
    rw [hval]
    constructor
    · intro h1
      rw [h1]
    · intro h1
      injection h1
  | num n =>
    have hne := pyOr_extract_ne_empty (j := J.num n) (by intro t ht; cases ht)
    exact iff_of_false hne (by intro hc; cases hc)
  | bool b =>
    have hne := pyOr_extract_ne_empty (j := J.bool b) (by intro t ht; cases ht)
    exact iff_of_false hne (by intro hc; cases hc)
  | null =>
    have hne := pyOr_extract_ne_empty (j := J.null) (by intro t ht; cases ht)
    exact iff_of_false hne (by intro hc; cases hc)
  | arr l =>
    have hne := pyOr_extract_ne_empty (j := J.arr l) (by intro t ht; cases ht)
    exact iff_of_false hne (by intro hc; cases hc)
  | obj kvs =>
    have hne := pyOr_extract_ne_empty (j := J.obj kvs) (by intro t ht; cases ht)
    exact iff_of_false hne (by intro hc; cases hc)

theorem newsAttempt_json_ok_ne_empty (date : String) (r : HttpResp) (s : String)
    (h : newsTextAttempt true date r = Except.ok s) : s ≠ ("") := by
  by_cases hst : r.status ≠ 200
  · simp [newsTextAttempt, hst] at h
  · cases hj : r.json? with
    | none => simp [newsTextAttempt, hst, hj] at h
    | some data =>
      cases hd : pyGet data ("data") (J.obj []) with
      | error e => simp [newsTextAttempt, hst, hj, hd] at h
      | ok payload =>
        cases hdv : pyGet payload ("date") J.null with
        | error e => simp [newsTextAttempt, hst, hj, hd, hdv] at h
        | ok dv =>
          cases htv : pyGet payload ("tip") J.null with
          | error e => simp [newsTextAttempt, hst, hj, hd, hdv, htv] at h
          | ok tv =>
            cases hnv : pyGet payload ("news") J.null with
            | error e => simp [newsTextAttempt, hst, hj, hd, hdv, htv, hnv] at h
            | ok nv =>
              cases hit : pyIter (if pyTruthy nv then nv else J.arr []) with
              | error e =>
                simp [newsTextAttempt, hst, hj, hd, hdv, htv, hnv, hit] at h
              | ok items =>
                simp only [newsTextAttempt, hst, hj, hd, hdv, htv, hnv, hit,
                  if_false, ite_true, if_true, Except.ok.injEq] at h
                set hdr := (if pyTruthy dv then pyStr dv else date) ++
                  (" 每日60秒新闻") with hhdr
                have hhne : hdr ≠ ("") :=
                  append_right_ne_empty _ _ (by decide)
                rw [← h]
                by_cases htip : pyTruthy (if pyTruthy tv then tv else J.str ("")) = true
                · rw [if_pos htip]
                  exact pyJoin_cons_ne_empty _ _ _ hhne
                · rw [if_neg htip]
                  exact pyJoin_cons_ne_empty _ _ _ hhne

/-- C9 counterexample: a 200 response with an empty body, fetched by the
generic text fetcher in raw mode, succeeds on the first attempt with the
empty string as payload — a successful `FetchResult` carrying an empty
payload. -/
theorem fetch_success_empty_counterexample :
    genericFetchText false (fun _ => ⟨200, none, ("")⟩) =
      (((""), true), 1, []) :=
  rfl

/-- C9 amended: a successful image fetch always carries the temporary-file
name, which ends in `.jpeg` and is therefore non-empty, and a successful
news JSON text fetch always carries the header line and is non-empty; but a
generic text fetch in raw mode returns the decoded body itself — empty
exactly when the body is empty — and in JSON mode returns an empty payload
exactly when the JSON document is the empty string. -/
theorem fetch_success_nonempty_spec :
    (∀ useJson r dl tp s, imageAttemptOutcome useJson r dl tp = Except.ok s →
      s = tp ++ (".jpeg") ∧ s ≠ ("")) ∧
    (∀ r s, textAttemptOutcome false r = Except.ok s → s = r.raw) ∧
    (∀ data raw s,
      textAttemptOutcome true ⟨200, some data, raw⟩ = Except.ok s →
      (s = ("") ↔ data = J.str (""))) ∧
    (∀ date r s, newsTextAttempt true date r = Except.ok s → s ≠ ("")) := by
  refine ⟨?_, ?_, ?_, ?_⟩
  · intro useJson r dl tp s h
    have hp := imageAttempt_ok_path useJson r dl tp s h
    exact ⟨hp, hp ▸ append_right_ne_empty tp (".jpeg") (by decide)⟩
  · intro r s h
    exact textAttempt_raw_ok r s h
  · intro data raw s h
    exact textAttempt_json_empty_iff data raw s h
  · intro date r s h
    exact newsAttempt_json_ok_ne_empty date r s h

/-- Witness for the amended C9: a raw-mode image attempt succeeds with the
non-empty temporary-file name `"t.jpeg"`. -/
theorem fetch_success_nonempty_spec_witness :
    imageAttemptOutcome false ⟨200, none, ("")⟩ (fun _ => ⟨200⟩) ("t") =
      Except.ok ("t.jpeg") ∧ (("t.jpeg") : String) ≠ ("") :=
  ⟨rfl, (fetch_success_nonempty_spec.1 false ⟨200, none, ("")⟩ (fun _ => ⟨200⟩)
    ("t") ("t.jpeg") rfl).2⟩

/-- C10: on the two designated suppression weekdays (Saturday = 5 and
Sunday = 6; the Saturday scenario in particular) the AI digest source is not
dispatched — no fetch-and-send call occurs for it — while the news,
skip-work-calendar and gold sources still fire whenever enabled; on any
other weekday an enabled AI digest source is dispatched as usual. -/
theorem ai_weekend_suppression_spec (cfg : PushFlags) (weekday : Nat) :
    ((weekday = 5 ∨ weekday = 6) →
      Source.ai ∉ dailyDispatchSources cfg weekday) ∧
    (cfg.enableNews = true → Source.news ∈ dailyDispatchSources cfg weekday) ∧
    (cfg.enableMoyu = true → Source.moyu ∈ dailyDispatchSources cfg weekday) ∧
    (cfg.enableGold = true → Source.gold ∈ dailyDispatchSources cfg weekday) ∧
    (¬(weekday = 5 ∨ weekday = 6) → cfg.enableAi = true →
      Source.ai ∈ dailyDispatchSources cfg weekday) := by
  unfold dailyDispatchSources
  refine ⟨?_, ?_, ?_, ?_, ?_⟩
  · intro hw
    rw [if_pos hw]
    split_ifs <;> simp
  · intro hn
    rw [if_pos hn]
    simp [List.mem_append]
  · intro hm
    rw [if_pos hm]
    simp [List.mem_append]
  · intro hg
    rw [if_pos hg]
    simp [List.mem_append]
  · intro hw ha
    rw [if_pos ha, if_neg hw]
    simp [List.mem_append]

/-- Witness for C10: all sources enabled, firing on a Saturday (weekday 5):
the AI digest is absent from the dispatch list while the other three fire. -/
theorem ai_weekend_suppression_spec_witness :
    Source.ai ∉ dailyDispatchSources ⟨true, true, true, true⟩ 5 ∧
    Source.news ∈ dailyDispatchSources ⟨true, true, true, true⟩ 5 ∧
    Source.moyu ∈ dailyDispatchSources ⟨true, true, true, true⟩ 5 ∧
    Source.gold ∈ dailyDispatchSources ⟨true, true, true, true⟩ 5 :=
  ⟨(ai_weekend_suppression_spec ⟨true, true, true, true⟩ 5).1 (Or.inl rfl),
   (ai_weekend_suppression_spec ⟨true, true, true, true⟩ 5).2.1 rfl,
   (ai_weekend_suppression_spec ⟨true, true, true, true⟩ 5).2.2.1 rfl,
   (ai_weekend_suppression_spec ⟨true, true, true, true⟩ 5).2.2.2.1 rfl⟩

theorem items_cons_step_nonstr (x : J) (xs : List J)
    (hx : extractFirstString x = firstNonEmpty (dfsStrings x))
    (ih : extractFsItems xs = firstNonEmpty (dfsItems xs)) :
    extractFsItems (x :: xs) = firstNonEmpty (dfsItems (x :: xs)) := by
  have happ : firstNonEmpty (dfsItems (x :: xs)) =
      match firstNonEmpty (dfsStrings x) with
      | some s => some s
      | none => firstNonEmpty (dfsItems xs) :=
    firstSuchThat_append strTruthy _ _
  rw [happ]
  show (match extractFirstString x with
    | some s => if s = ("") then extractFsItems xs else some s
    | none => extractFsItems xs) = _
  rw [hx]
  cases hfx : firstNonEmpty (dfsStrings x) with
  | none => simpa using ih
  | some s =>
    have hs : s ≠ ("") := by
      have hp := firstSuchThat_pred hfx
      simpa [strTruthy] using hp
    simp [hs]

theorem items_cons_step (x : J) (xs : List J)
    (hx : extractFirstString x = efsSpec x)
    (ih : extractFsItems xs = firstNonEmpty (dfsItems xs)) :
    extractFsItems (x :: xs) = firstNonEmpty (dfsItems (x :: xs)) := by
  cases x with
  | str s =>
    have happ : firstNonEmpty (dfsItems (J.str s :: xs)) =
        match firstNonEmpty (dfsStrings (J.str s)) with
        | some t => some t
        | none => firstNonEmpty (dfsItems xs) :=
      firstSuchThat_append strTruthy _ _
    rw [happ]
    by_cases hs : s = ("")
    · subst hs
      show (if ("" : String) = ("") then extractFsItems xs else some ("")) = _
      rw [if_pos rfl]
      have hnone : firstNonEmpty (dfsStrings (J.str (""))) = none := rfl
      rw [hnone]
      simpa using ih
    · show (if s = ("") then extractFsItems xs else some s) = _
      rw [if_neg hs]
      have hsome : firstNonEmpty (dfsStrings (J.str s)) = some s := by
        show firstNonEmpty [s] = some s
        simp [firstNonEmpty, firstSuchThat, strTruthy, hs]
      rw [hsome]
  | num n => exact items_cons_step_nonstr (J.num n) xs hx ih
  | bool b => exact items_cons_step_nonstr (J.bool b) xs hx ih
  | null => exact items_cons_step_nonstr J.null xs hx ih
  | arr l => exact items_cons_step_nonstr (J.arr l) xs hx ih
  | obj kvs => exact items_cons_step_nonstr (J.obj kvs) xs hx ih

theorem fields_cons_step_nonstr (k : String) (v : J) (rest : List (String × J))
    (hx : extractFirstString v = firstNonEmpty (dfsStrings v))
    (ih : extractFsFields rest = firstNonEmpty (dfsFields rest)) :
    extractFsFields ((k, v) :: rest) = firstNonEmpty (dfsFields ((k, v) :: rest)) := by
  have happ : firstNonEmpty (dfsFields ((k, v) :: rest)) =
      match firstNonEmpty (dfsStrings v) with
      | some s => some s
      | none => firstNonEmpty (dfsFields rest) :=
    firstSuchThat_append strTruthy _ _
  rw [happ]
  show (match extractFirstString v with
    | some s => if s = ("") then extractFsFields rest else some s
    | none => extractFsFields rest) = _
  rw [hx]
  cases hfx : firstNonEmpty (dfsStrings v) with
  | none => simpa using ih
  | some s =>
    have hs : s ≠ ("") := by
      have hp := firstSuchThat_pred hfx
      simpa [strTruthy] using hp
    simp [hs]

theorem fields_cons_step (k : String) (v : J) (rest : List (String × J))
    (hx : extractFirstString v = efsSpec v)
    (ih : extractFsFields rest = firstNonEmpty (dfsFields rest)) :
    extractFsFields ((k, v) :: rest) = firstNonEmpty (dfsFields ((k, v) :: rest)) := by
  cases v with
  | str s =>
    have happ : firstNonEmpty (dfsFields ((k, J.str s) :: rest)) =
        match firstNonEmpty (dfsStrings (J.str s)) with
        | some t => some t
        | none => firstNonEmpty (dfsFields rest) :=
      firstSuchThat_append strTruthy _ _
    rw [happ]
    by_cases hs : s = ("")
    · subst hs
      show (if ("" : String) = ("") then extractFsFields rest else some ("")) = _
      rw [if_pos rfl]
      have hnone : firstNonEmpty (dfsStrings (J.str (""))) = none := rfl
      rw [hnone]
      simpa using ih
    · show (if s = ("") then extractFsFields rest else some s) = _
      rw [if_neg hs]
      have hsome : firstNonEmpty (dfsStrings (J.str s)) = some s := by
        show firstNonEmpty [s] = some s
        simp [firstNonEmpty, firstSuchThat, strTruthy, hs]
      rw [hsome]
  | num n => exact fields_cons_step_nonstr k (J.num n) rest hx ih
  | bool b => exact fields_cons_step_nonstr k (J.bool b) rest hx ih
  | null => exact fields_cons_step_nonstr k J.null rest hx ih
  | arr l => exact fields_cons_step_nonstr k (J.arr l) rest hx ih
  | obj kvs => exact fields_cons_step_nonstr k (J.obj kvs) rest hx ih

mutual

theorem efs_eq (j : J) : extractFirstString j = efsSpec j := by
  cases j with
  | str s => rfl
  | arr l => exact efsItems_eq l
  | obj kvs => exact efsFields_eq kvs
  | num n => rfl
  | bool b => rfl
  | null => rfl

theorem efsItems_eq (l : List J) : extractFsItems l = firstNonEmpty (dfsItems l) := by
  cases l with
  | nil => rfl
  | cons x xs => exact items_cons_step x xs (efs_eq x) (efsItems_eq xs)

theorem efsFields_eq (kvs : List (String × J)) :
    extractFsFields kvs = firstNonEmpty (dfsFields kvs) := by
  cases kvs with
  | nil => rfl
  | cons kv rest =>
    obtain ⟨k, v⟩ := kv
    exact fields_cons_step k v rest (efs_eq v) (efsFields_eq rest)

end

theorem fiu_items_cons_step (x : J) (xs : List J)
    (hx : extractFirstImageUrl x = firstSuchThat isImageUrl (dfsStrings x))
    (ih : extractFiuItems xs = firstSuchThat isImageUrl (dfsItems xs)) :
    extractFiuItems (x :: xs) = firstSuchThat isImageUrl (dfsItems (x :: xs)) := by
  have happ : firstSuchThat isImageUrl (dfsItems (x :: xs)) =
      match firstSuchThat isImageUrl (dfsStrings x) with
      | some s => some s
      | none => firstSuchThat isImageUrl (dfsItems xs) :=
    firstSuchThat_append isImageUrl _ _
  rw [happ]
  show (match extractFirstImageUrl x with
    | some s => if s = ("") then extractFiuItems xs else some s
    | none => extractFiuItems xs) = _
  rw [hx]
  cases hfx : firstSuchThat isImageUrl (dfsStrings x) with
  | none => simpa using ih
  | some s =>
    have hp := firstSuchThat_pred hfx
    have hs : s ≠ ("") := by
      intro he
      rw [he] at hp
      exact absurd hp (by decide)
    simp [hs]

theorem fiu_fields_cons_step (k : String) (v : J) (rest : List (String × J))
    (hx : extractFirstImageUrl v = firstSuchThat isImageUrl (dfsStrings v))
    (ih : extractFiuFields rest = firstSuchThat isImageUrl (dfsFields rest)) :
    extractFiuFields ((k, v) :: rest) =
      firstSuchThat isImageUrl (dfsFields ((k, v) :: rest)) := by
  have happ : firstSuchThat isImageUrl (dfsFields ((k, v) :: rest)) =
      match firstSuchThat isImageUrl (dfsStrings v) with
      | some s => some s
      | none => firstSuchThat isImageUrl (dfsFields rest) :=
    firstSuchThat_append isImageUrl _ _
  rw [happ]
  show (match extractFirstImageUrl v with
    | some s => if s = ("") then extractFiuFields rest else some s
    | none => extractFiuFields rest) = _
  rw [hx]
  cases hfx : firstSuchThat isImageUrl (dfsStrings v) with
  | none => simpa using ih
  | some s =>
    have hp := firstSuchThat_pred hfx
    have hs : s ≠ ("") := by
      intro he
      rw [he] at hp
      exact absurd hp (by decide)
    simp [hs]

mutual

theorem efiu_eq (j : J) :
    extractFirstImageUrl j = firstSuchThat isImageUrl (dfsStrings j) := by
  cases j with
  | str s =>
    show (if isImageUrl s then some s else none) = firstSuchThat isImageUrl [s]
    by_cases hp : isImageUrl s
    · simp [firstSuchThat, List.filter_cons, hp]
    · simp [firstSuchThat, List.filter_cons, hp]
  | arr l => exact efiuItems_eq l
  | obj kvs => exact efiuFields_eq kvs
  | num n => rfl
  | bool b => rfl
  | null => rfl

theorem efiuItems_eq (l : List J) :
    extractFiuItems l = firstSuchThat isImageUrl (dfsItems l) := by
  cases l with
  | nil => rfl
  | cons x xs => exact fiu_items_cons_step x xs (efiu_eq x) (efiuItems_eq xs)

theorem efiuFields_eq (kvs : List (String × J)) :
    extractFiuFields kvs = firstSuchThat isImageUrl (dfsFields kvs) := by
  cases kvs with
  | nil => rfl
  | cons kv rest =>
    obtain ⟨k, v⟩ := kv
    exact fiu_fields_cons_step k v rest (efiu_eq v) (efiuFields_eq rest)

end

/-- C4 counterexample: the tree `[""]` contains a string — the spec-side
depth-first reading (`specFirstString`) finds the empty string first — yet
`_extract_first_string` returns `None`, because the `if res:` truthiness
test discards the empty string found below the root. So the function does
not return the first string in depth-first order, and it can return none
although a string exists in the tree. -/
theorem first_string_counterexample :
    extractFirstString (J.arr [J.str ("")]) = none ∧
    specFirstString (J.arr [J.str ("")]) = some ("") ∧
    extractFirstString (J.arr [J.str (""), J.str ("x")]) = some ("x") ∧
    specFirstString (J.arr [J.str (""), J.str ("x")]) = some ("") :=
  ⟨rfl, rfl, rfl, rfl⟩

/-- C4 amended: `_extract_first_string` returns the root itself when the
root is a string (even the empty one); otherwise it returns the first
non-empty string of the depth-first enumeration (object key order and array
order as the only tie-breaks), and returns none exactly when the root is
not a string and no non-empty string exists anywhere in the tree. -/
theorem first_string_spec (j : J) :
    extractFirstString j =
      (match j with
       | J.str s => some s
       | _ => firstNonEmpty (dfsStrings j)) :=
  efs_eq j

/-- C5: `_extract_first_image_url` returns the first string of the
depth-first enumeration satisfying the image-URL test — starting with the
HTTP(S) scheme prefix `"http"` and containing one of `.jpg`, `.jpeg`,
`.png` as a substring (not a strict suffix) — and none otherwise; in
particular it returns the input for `"https://x.test/a.png?x=1"` (query
string after the extension tolerated) and none for
`"https://x.test/a.gif"`. -/
theorem first_image_url_spec :
    (∀ j, extractFirstImageUrl j = firstSuchThat isImageUrl (dfsStrings j)) ∧
    (∀ s, isImageUrl s = (pyStartsWith s ("http") &&
      (strContains s (".jpg") || strContains s (".jpeg") ||
        strContains s (".png")))) ∧
    extractFirstImageUrl (J.str ("https://x.test/a.png?x=1")) =
      some ("https://x.test/a.png?x=1") ∧
    extractFirstImageUrl (J.str ("https://x.test/a.gif")) = none :=
  ⟨efiu_eq, fun _ => rfl, rfl, rfl⟩
